import Mathlib

/-!
Verification development for the AutosaurusAPI automation-script interpreter.

This file shallowly embeds the core of the script interpreter
(app/core/script_engine.py, app/core/action_executor.py, and the data
models in app/models/script.py and app/models/action.py) and proves or
refutes the specification claims about it.

Modelling conventions:
- Python strings are modelled as List Char (named Str below) so that
  substring replacement can be reasoned about by structural induction.
- Python values reaching the variable store are modelled by the Value
  inductive, restricted to the scalar types the interpreter manipulates
  (None, bool, int, str).
- Python dicts (the variable store, and free-form dicts such as a step
  condition) preserve insertion order; they are modelled as ordered
  association lists, with key assignment keeping the position of an
  existing key and appending a fresh key.
- Python exceptions are modelled as Except values carrying the message.
-/

namespace Autosaurus

/-- Python strings, as lists of characters. -/
abbrev Str := List Char

/-- Shorthand for embedding a Lean string literal as a Str. -/
def str (s : String) : Str := s.toList

/-- Python substring containment, s2 in s1 style: does pat occur inside s?
Mirrors the semantics of the Python `in` operator on strings (the empty
pattern occurs in every string). -/
def containsSub : Str → Str → Bool
  | [], pat => pat.isEmpty
  | c :: rest, pat => pat.isPrefixOf (c :: rest) || containsSub rest pat

/-- Fuel-structured worker for replaceAll; the fuel is only a structural
termination device, one unit per character consumed, so fuel equal to the
length of the string always suffices. -/
def replaceAllAux (pat rep : Str) : Nat → Str → Str
  | 0, s => s
  | _ + 1, [] => []
  | fuel + 1, c :: rest =>
    if pat.isPrefixOf (c :: rest) ∧ ¬ pat.isEmpty then
      rep ++ replaceAllAux pat rep fuel ((c :: rest).drop pat.length)
    else
      c :: replaceAllAux pat rep fuel rest

/-- Python str.replace: replace every non-overlapping occurrence of pat in s
by rep, scanning left to right.  The source only ever calls this with a
nonempty pattern (a dollar sign followed by a variable name); the empty
pattern is mapped to the identity to keep the function total. -/
def replaceAll (pat rep s : Str) : Str :=
  replaceAllAux pat rep s.length s

/-- Fuel-structured worker for natDigits; fuel n + 1 always suffices since
the argument at least halves each round. -/
def natDigitsAux : Nat → Nat → Str
  | 0, _ => []
  | fuel + 1, n =>
    if n < 10 then [Nat.digitChar n]
    else natDigitsAux fuel (n / 10) ++ [Nat.digitChar (n % 10)]

/-- Decimal digits of a natural number, most significant first
(the digits of Python str(n) for a nonnegative n). -/
def natDigits (n : Nat) : Str :=
  natDigitsAux (n + 1) n

/-- Python str() of an int: optional minus sign followed by the digits. -/
def intToStr (n : Int) : Str :=
  if n < 0 then '-' :: natDigits n.natAbs else natDigits n.toNat

/-- Values stored in the Variable Store (Python Any, restricted to the
scalar types the interpreter manipulates). -/
inductive Value where
  | vnone : Value
  | vbool : Bool → Value
  | vint : Int → Value
  | vstr : Str → Value
deriving DecidableEq, Repr

/-- Python truthiness of a Value (bool(v)). -/
def truthy : Value → Bool
  | .vnone => false
  | .vbool b => b
  | .vint n => n ≠ 0
  | .vstr s => ¬ s.isEmpty

/-- Python str() of a Value. -/
def pyStr : Value → Str
  | .vnone => str "None"
  | .vbool true => str "True"
  | .vbool false => str "False"
  | .vint n => intToStr n
  | .vstr s => s

/-- Model of Python float() on a string for plain decimal literals:
optional sign, digits, optional decimal point and fraction digits, at
least one digit overall.  Exotic inputs accepted by CPython (exponents,
inf, nan, surrounding whitespace) are treated as parse failures; the
claims settled below depend only on the success/failure structure, not on
the exact set of accepted literals. -/
def parseFloat (s : Str) : Option Rat :=
  let signAndRest : Int × Str :=
    match s with
    | '-' :: rest => (-1, rest)
    | '+' :: rest => (1, rest)
    | rest => (1, rest)
  let sign := signAndRest.1
  let t := signAndRest.2
  let intPart := t.takeWhile Char.isDigit
  let rest := t.dropWhile Char.isDigit
  let digitsToNat : Str → Nat := fun ds =>
    ds.foldl (fun acc c => acc * 10 + c.toNat - '0'.toNat) 0
  match rest with
  | [] =>
    if intPart.isEmpty then none
    else some (sign * (digitsToNat intPart : Int))
  | '.' :: frac =>
    if frac.all Char.isDigit ∧ ¬ (intPart.isEmpty ∧ frac.isEmpty) then
      some ((sign * ((digitsToNat intPart * 10 ^ frac.length + digitsToNat frac : Nat) : Int) : Int) /
        ((10 ^ frac.length : Nat) : Rat))
    else none
  | _ => none

/-- Model of Python float(v) on a Value: None raises TypeError (no result),
bool converts through int, int converts exactly, str parses. -/
def pyFloat : Value → Option Rat
  | .vnone => none
  | .vbool b => some (if b then 1 else 0)
  | .vint n => some (n : Rat)
  | .vstr s => parseFloat s

/-- An ordered string-keyed Python dict (the Variable Store, and free-form
dicts such as a step condition). -/
abbrev Dict := List (Str × Value)

/-- Python dict lookup d.get(k): first (unique, in a real dict) binding. -/
def dictGet : Dict → Str → Option Value
  | [], _ => none
  | (k, v) :: rest, n => if k = n then some v else dictGet rest n

/-- Python dict assignment d[k] = v: overwrite in place keeping the key
position, or append a fresh key. -/
def setVar : Dict → Str → Value → Dict
  | [], k, v => [(k, v)]
  | (k', v') :: rest, k, v =>
    if k' = k then (k, v) :: rest else (k', v') :: setVar rest k v

/-- Python dict.update(other): assign every binding of other in order. -/
def updateStore (st other : Dict) : Dict :=
  other.foldl (fun s kv => setVar s kv.1 kv.2) st

/-- The string case of ScriptEngine.interpolate_value (identical code in
ActionExecutor.interpolate_value): for every store entry in order, if the
placeholder (a dollar sign followed by the variable name) occurs in the
evolving result, replace every occurrence by the str() of the value. -/
def interpolateStr (vars : Dict) (s : Str) : Str :=
  vars.foldl
    (fun r kv =>
      let ph := '$' :: kv.1
      if containsSub r ph then replaceAll ph (pyStr kv.2) r else r)
    s

/-- ScriptEngine.interpolate_value: non-string values pass through
unchanged, strings get placeholder substitution. -/
def interpolateValue (vars : Dict) (v : Value) : Value :=
  match v with
  | .vstr s => .vstr (interpolateStr vars s)
  | v => v

/-- The twelve operator strings evaluate_condition recognises. -/
def knownOperators : List Str :=
  [str "equals", str "not_equals", str "contains", str "not_contains",
   str "greater_than", str "less_than", str "greater_equal", str "less_equal",
   str "exists", str "not_exists", str "is_empty", str "not_empty"]

/-- The actual_value read by evaluate_condition: the store entry under the
condition variable name, None when the name is absent from the store (or
is not a string and hence cannot be a key of the string-keyed store). -/
def conditionActual (cond vars : Dict) : Value :=
  match (dictGet cond (str "variable")).getD .vnone with
  | .vstr n => (dictGet vars n).getD .vnone
  | _ => .vnone

/-- The expected_value of evaluate_condition: the condition literal,
interpolated against the store before comparison. -/
def conditionExpected (cond vars : Dict) : Value :=
  interpolateValue vars ((dictGet cond (str "value")).getD .vnone)

/-- ScriptEngine.evaluate_condition.  The condition is a free-form dict;
missing keys read as None.  A falsy variable name or operator short
circuits to false.  Comparisons mirror the Python operator chain,
including the truthiness-based is_empty and not_empty and the
float-parsing numeric operators whose parse failures yield false. -/
def evaluateCondition (cond : Dict) (vars : Dict) : Bool :=
  let variableName := (dictGet cond (str "variable")).getD .vnone
  let operatorV := (dictGet cond (str "operator")).getD .vnone
  if ¬ truthy variableName ∨ ¬ truthy operatorV then false
  else
    let actual := conditionActual cond vars
    let expected := conditionExpected cond vars
    match operatorV with
    | .vstr op =>
      if op = str "equals" then pyStr actual = pyStr expected
      else if op = str "not_equals" then pyStr actual ≠ pyStr expected
      else if op = str "contains" then containsSub (pyStr actual) (pyStr expected)
      else if op = str "not_contains" then ¬ containsSub (pyStr actual) (pyStr expected)
      else if op = str "greater_than" then
        match pyFloat actual, pyFloat expected with
        | some a, some b => a > b
        | _, _ => false
      else if op = str "less_than" then
        match pyFloat actual, pyFloat expected with
        | some a, some b => a < b
        | _, _ => false
      else if op = str "greater_equal" then
        match pyFloat actual, pyFloat expected with
        | some a, some b => a ≥ b
        | _, _ => false
      else if op = str "less_equal" then
        match pyFloat actual, pyFloat expected with
        | some a, some b => a ≤ b
        | _, _ => false
      else if op = str "exists" then actual ≠ .vnone
      else if op = str "not_exists" then actual = .vnone
      else if op = str "is_empty" then ¬ truthy actual ∨ (pyStr actual).length = 0
      else if op = str "not_empty" then truthy actual ∧ (pyStr actual).length > 0
      else false
    | _ => false

/-- The condition dict testing a variable with the is_empty operator. -/
def isEmptyCond (name : Str) : Dict :=
  [(str "variable", .vstr name), (str "operator", .vstr (str "is_empty"))]

/-- The condition dict testing a variable with the not_empty operator. -/
def notEmptyCond (name : Str) : Dict :=
  [(str "variable", .vstr name), (str "operator", .vstr (str "not_empty"))]

/-- The value strings of the ActionType enum (app/models/action.py). -/
def actionTypeValues : List Str :=
  [str "navigate", str "google_get", str "get_via", str "back", str "forward",
   str "refresh",
   str "click", str "type", str "clear", str "select_option", str "scroll",
   str "scroll_into_view", str "hover", str "focus", str "drag_and_drop",
   str "get_text", str "get_attribute", str "get_html", str "get_page_html",
   str "get_page_text", str "get_url", str "get_title", str "get_cookies",
   str "is_element_present",
   str "soupify", str "soupify_select", str "soupify_select_all",
   str "run_js", str "run_cdp",
   str "set_cookies", str "delete_cookies", str "load_cookies_netscape",
   str "screenshot", str "screenshot_element",
   str "new_tab", str "switch_tab", str "close_tab", str "get_tabs",
   str "select_iframe", str "get_iframe_by_link", str "exit_iframe",
   str "sleep", str "random_sleep", str "wait_for_navigation",
   str "wait_for_element",
   str "enable_human_mode", str "disable_human_mode",
   str "fetch_get", str "fetch_post"]

/-- ActionRequest (app/models/action.py): every field a pydantic Optional
defaulting to None except the action kind.  Seconds fields are modelled as
rationals; no claim computes with them. -/
structure ActionRequest where
  action : Str
  selector : Option Str := none
  url : Option Str := none
  text : Option Str := none
  value : Option Str := none
  «attribute» : Option Str := none
  script : Option Str := none
  cookies : Option (List Dict) := none
  cookies_text : Option Str := none
  seconds : Option Rat := none
  min_seconds : Option Rat := none
  max_seconds : Option Rat := none
  tab_index : Option Int := none
  iframe_selector : Option Str := none
  save_as : Option Str := none
  params : Option Dict := none
deriving DecidableEq, Repr

/-- ActionExecutor.interpolate_params: interpolate the eight string fields
of the request when present, and the values of the params dict when that
dict is truthy (present and nonempty). -/
def interpolateParams (vars : Dict) (a : ActionRequest) : ActionRequest :=
  { a with
    selector := a.selector.map (interpolateStr vars)
    url := a.url.map (interpolateStr vars)
    text := a.text.map (interpolateStr vars)
    value := a.value.map (interpolateStr vars)
    «attribute» := a.«attribute».map (interpolateStr vars)
    script := a.script.map (interpolateStr vars)
    cookies_text := a.cookies_text.map (interpolateStr vars)
    iframe_selector := a.iframe_selector.map (interpolateStr vars)
    params :=
      match a.params with
      | some ps =>
        if ps.isEmpty then some ps
        else some (ps.map (fun kv => (kv.1, interpolateValue vars kv.2)))
      | none => none }

/-- Validation performed by the _sleep handler of ActionExecutor before
the external time.sleep effect: a missing seconds field raises. -/
def sleepRequiresSeconds (a : ActionRequest) : Except Str Unit :=
  if a.seconds = none then .error (str "Seconds is required for sleep action")
  else .ok ()

/-- Validation performed by the _switch_tab handler of ActionExecutor
before touching the driver: a missing tab index raises. -/
def switchTabRequiresIndex (a : ActionRequest) : Except Str Unit :=
  if a.tab_index = none then .error (str "Tab index is required for switch_tab action")
  else .ok ()

/-- The fields of a ScriptStep (app/models/script.py), parametrised by the
step type so the recursive knot can be tied below.  The source declares
the condition as an optional dict and the step lists as optional lists;
every use in the engine tests only their truthiness, under which None and
an empty dict or list coincide, so they are modelled as plain dicts and
lists with the empty one standing for an absent field. -/
structure StepF (σ : Type) where
  action : Str
  selector : Option Str := none
  url : Option Str := none
  text : Option Str := none
  value : Option Str := none
  script : Option Str := none
  save_as : Option Str := none
  condition : Dict := []
  then_steps : List σ := []
  else_steps : List σ := []
  loop_range : List Int := []
  loop_variable : Option Str := none
  loop_steps : List σ := []
  on_error : Option Str := some (str "abort")
  max_retry : Option Int := some 3
deriving Repr

/-- A script step: the recursive closing of StepF. -/
inductive ScriptStep where
  | mk : StepF ScriptStep → ScriptStep
deriving Repr

/-- Field access on a step. -/
def ScriptStep.fields : ScriptStep → StepF ScriptStep
  | .mk f => f

/-- Script (app/models/script.py): name, default variables, steps.
Description and session_config play no role in the engine. -/
structure Script where
  name : Str
  «variables» : Dict := []
  steps : List ScriptStep

/-- ScriptEngine._step_to_action: reject an action string outside the
ActionType enum (the ValueError raised by the enum constructor), then
build an ActionRequest carrying only the five step fields, each
interpolated when truthy and None otherwise. -/
def stepToAction (vars : Dict) (step : ScriptStep) : Except Str ActionRequest :=
  let fs := step.fields
  if fs.action ∈ actionTypeValues then
    let conv : Option Str → Option Str := fun o =>
      match o with
      | some s => if s.isEmpty then none else some (interpolateStr vars s)
      | none => none
    .ok { action := fs.action
          selector := conv fs.selector
          url := conv fs.url
          text := conv fs.text
          value := conv fs.value
          script := conv fs.script }
  else .error (fs.action ++ str " is not a valid ActionType")

/-- Engine state: the variable store and the completed-step counter.  The
engine and its action executor share one store object in the source
(ActionExecutor is constructed on self.variables), so the paired writes to
both in the source are a single write here. -/
structure EngineSt where
  vars : Dict
  steps_completed : Nat
deriving Repr

/-- The external actor capability (the driver-touching part of
ActionExecutor.execute after interpolation): given a request and the
opaque driver state, produce a new driver state and a returned value or a
raised failure. -/
def Actor (D : Type) : Type := ActionRequest → D → D × Except Str Value

/-- Python x or dflt on an optional string (None and the empty string are
falsy). -/
def pyOrStr (o : Option Str) (dflt : Str) : Str :=
  match o with
  | some s => if s.isEmpty then dflt else s
  | none => dflt

/-- Python x or dflt on an optional int (None and 0 are falsy). -/
def pyOrInt (o : Option Int) (dflt : Int) : Int :=
  match o with
  | some n => if n = 0 then dflt else n
  | none => dflt

/-- Python range(a, b + 1), the iteration space of the loop construct. -/
def intRange (a b : Int) : List Int :=
  (List.range (b + 1 - a).toNat).map (fun k : Nat => a + (k : Int))

mutual

/-- ScriptEngine.execute_step.  The whole step body runs inside a try; on
an error the mutated state is kept and the per-step policy decides between
skip (count and continue), retry (recurse with the attempt counter bumped,
while it is below the max-retry bound), and abort or anything else
(propagate).  Dispatch priority: a truthy condition with a truthy then
list is a conditional; otherwise a truthy loop range with a truthy loop
body is a loop; otherwise the step is converted to an action request and
sent to the actor. -/
def execStep {D : Type} (ac : Actor D) (step : ScriptStep) (rc : Nat) (d : D)
    (st : EngineSt) : (D × EngineSt) × Except Str Value :=
  let fs := step.fields
  let attempt : (D × EngineSt) × Except Str Value :=
    if ¬ fs.condition.isEmpty ∧ ¬ fs.then_steps.isEmpty then
      let cr := evaluateCondition fs.condition st.vars
      let inner :=
        if cr ∧ ¬ fs.then_steps.isEmpty then execList ac fs.then_steps d st
        else if ¬ cr ∧ ¬ fs.else_steps.isEmpty then execList ac fs.else_steps d st
        else ((d, st), .ok .vnone)
      match inner with
      | ((d1, st1), .ok _) =>
        ((d1, { st1 with steps_completed := st1.steps_completed + 1 }), .ok .vnone)
      | e => e
    else if ¬ fs.loop_range.isEmpty ∧ ¬ fs.loop_steps.isEmpty then
      match fs.loop_range with
      | [a, b] =>
        match execLoop ac (intRange a b) (pyOrStr fs.loop_variable (str "i"))
            fs.loop_steps d st with
        | ((d1, st1), .ok _) =>
          ((d1, { st1 with steps_completed := st1.steps_completed + 1 }), .ok .vnone)
        | e => e
      | _ =>
        ((d, st), .error (str "loop_range must have exactly 2 elements: [start, end]"))
    else
      match stepToAction st.vars step with
      | .error e => ((d, st), .error e)
      | .ok req =>
        match ac (interpolateParams st.vars req) d with
        | (d1, .error e) => ((d1, st), .error e)
        | (d1, .ok res) =>
          let vars1 :=
            match fs.save_as with
            | some n => if n.isEmpty then st.vars else setVar st.vars n res
            | none => st.vars
          ((d1, { vars := vars1, steps_completed := st.steps_completed + 1 }), .ok res)
  match attempt with
  | (_, .ok _) => attempt
  | ((d1, st1), .error e) =>
    if pyOrStr step.fields.on_error (str "abort") = str "skip" then
      ((d1, { st1 with steps_completed := st1.steps_completed + 1 }), .ok .vnone)
    else if pyOrStr step.fields.on_error (str "abort") = str "retry" ∧
        (rc : Int) < pyOrInt step.fields.max_retry 3 then
      execStep ac step (rc + 1) d1 st1
    else
      ((d1, st1), .error e)
termination_by (sizeOf step, ((pyOrInt step.fields.max_retry 3) + 1 - rc).toNat)
decreasing_by
  all_goals try simp_wf
  all_goals
    first
      | (apply Prod.Lex.left
         first
           | (obtain ⟨f⟩ := step
              obtain ⟨a, sel, u, t, v, sc, sv, c, ts, es, lr, lv, ls, oe, mr⟩ := f
              simp [ScriptStep.fields]
              omega)
           | omega
           | (simp <;> omega))
      | (apply Prod.Lex.right
         first
           | omega
           | (rename_i h; obtain ⟨-, hlt⟩ := h; omega)
           | (simp <;> omega))

/-- Sequential execution of a list of steps (the for loops over steps in
execute_script and over nested bodies in execute_step), stopping at the
first propagated error. -/
def execList {D : Type} (ac : Actor D) (steps : List ScriptStep) (d : D)
    (st : EngineSt) : (D × EngineSt) × Except Str Value :=
  match steps with
  | [] => ((d, st), .ok .vnone)
  | s :: rest =>
    match execStep ac s 0 d st with
    | ((d1, st1), .ok _) => execList ac rest d1 st1
    | e => e
termination_by (sizeOf steps, 0)
decreasing_by
  all_goals try simp_wf
  all_goals (apply Prod.Lex.left; first | omega | (simp <;> omega))

/-- The loop construct of execute_step: for each index in order, write it
to the loop variable, then run the body. -/
def execLoop {D : Type} (ac : Actor D) (ivals : List Int) (lv : Str)
    (body : List ScriptStep) (d : D) (st : EngineSt) :
    (D × EngineSt) × Except Str Value :=
  match ivals with
  | [] => ((d, st), .ok .vnone)
  | i :: rest =>
    match execList ac body d { st with vars := setVar st.vars lv (.vint i) } with
    | ((d1, st1), .ok _) => execLoop ac rest lv body d1 st1
    | e => e
termination_by (sizeOf body, ivals.length + 1)
decreasing_by
  all_goals try simp_wf
  all_goals (apply Prod.Lex.right; first | omega | (simp <;> omega))

end

/-- The Run result record of execute_script.  Wall-clock execution time is
an external effect and is not modelled. -/
structure RunResult where
  success : Bool
  steps_completed : Nat
  «variables» : Dict
  error : Option Str
deriving Repr

/-- ScriptEngine.execute_script: reset the counter, merge the declared
script variables into the store with dict.update (the truthiness guard on
an empty declaration dict is the identity update, so it is dropped), run
the steps, and catch any propagated error into a failure record. -/
def executeScript {D : Type} (ac : Actor D) (s : Script) (vars0 : Dict) (d : D) :
    D × RunResult :=
  let vars1 := updateStore vars0 s.«variables»
  match execList ac s.steps d { vars := vars1, steps_completed := 0 } with
  | ((d1, st1), .ok _) =>
    (d1, { success := true, steps_completed := st1.steps_completed,
           «variables» := st1.vars, error := none })
  | ((d1, st1), .error e) =>
    (d1, { success := false, steps_completed := st1.steps_completed,
           «variables» := st1.vars, error := some e })

/-! Concrete fixtures used to instantiate the claims. -/

/-- An actor that always fails, counting its invocations in the driver
state. -/
def countingFailActor : Actor Nat := fun _ d => (d + 1, .error (str "boom"))

/-- A plain navigation action step carrying a retry policy. -/
def retryNavStep (m : Int) : ScriptStep :=
  .mk { action := str "navigate"
        url := some (str "http://x")
        on_error := some (str "retry")
        max_retry := some m }

/-- An actor that never fails, returning the text r, and logging the url
field of every request it receives in the driver state. -/
def echoActor : Actor (List (Option Str)) :=
  fun req d => (d ++ [req.url], .ok (.vstr (str "r")))

/-- A navigation action step with the given url. -/
def navUrlStep (u : Str) : ScriptStep :=
  .mk { action := str "navigate"
        url := some u }

/-- A navigation action step with no url. -/
def noUrlNavStep : ScriptStep :=
  .mk { action := str "navigate" }

/-- A loop step over the inclusive range [a, b] whose body is one
navigation to the default loop variable placeholder. -/
def loopNavStep (a b : Int) : ScriptStep :=
  .mk { action := str "navigate"
        loop_range := [a, b]
        loop_steps := [navUrlStep (str "$i")] }

/-- A step carrying a condition, a then body, an else body left empty, an
action url and arbitrary loop fields all at once, for the
dispatch-priority claim. -/
def fullStep (c : Dict) (u tu : Str) (lr : List Int) (ls : List ScriptStep) :
    ScriptStep :=
  .mk { action := str "navigate"
        url := some u
        condition := c
        then_steps := [navUrlStep tu]
        loop_range := lr
        loop_steps := ls }

/-- A step carrying a condition but an empty then body and no loop
fields. -/
def condNoThenStep (c : Dict) (u : Str) : ScriptStep :=
  .mk { action := str "navigate"
        url := some u
        condition := c }

/-- A step carrying a condition with an empty then body plus loop
fields. -/
def condLoopStep (c : Dict) (u : Str) (a b : Int) : ScriptStep :=
  .mk { action := str "navigate"
        url := some u
        condition := c
        loop_range := [a, b]
        loop_steps := [noUrlNavStep] }

/-- An actor failing exactly on requests whose url is the text bad. -/
def pickyActor : Actor Unit :=
  fun req d => (d, if req.url = some (str "bad") then .error (str "boom") else .ok .vnone)

/-- A three-step script whose second step fails under pickyActor. -/
def c4Script : Script :=
  { name := str "s"
    steps := [navUrlStep (str "a"), navUrlStep (str "bad"), navUrlStep (str "c")] }

/-- A script step requesting the sleep action (the step model offers no
seconds field to set). -/
def sleepStep : ScriptStep :=
  .mk { action := str "sleep" }

/-- A script step requesting the switch_tab action (the step model offers
no tab-index field to set). -/
def switchTabStep : ScriptStep :=
  .mk { action := str "switch_tab" }

/-! Helper lemmas. -/

theorem containsSub_head_mem {s p : Str} {c : Char}
    (h : containsSub s (c :: p) = true) : c ∈ s := by
  induction s with
  | nil => simp [containsSub] at h
  | cons a rest ih =>
    simp only [containsSub, Bool.or_eq_true] at h
    rcases h with h | h
    · simp [List.isPrefixOf] at h
      simp [h.1]
    · exact List.mem_cons_of_mem _ (ih h)

theorem interpolateStr_no_dollar (vars : Dict) (s : Str) (h : '$' ∉ s) :
    interpolateStr vars s = s := by
  suffices key : ∀ (l : Dict) (r : Str), '$' ∉ r →
      l.foldl
        (fun r kv =>
          let ph := '$' :: kv.1
          if containsSub r ph then replaceAll ph (pyStr kv.2) r else r)
        r = r by
    exact key vars s h
  intro l
  induction l with
  | nil => intro r _; rfl
  | cons kv tl ih =>
    intro r hr
    have hguard : containsSub r ('$' :: kv.1) = false := by
      cases hc : containsSub r ('$' :: kv.1) with
      | false => rfl
      | true => exact absurd (containsSub_head_mem hc) hr
    simp only [List.foldl_cons, hguard, Bool.false_eq_true, if_false]
    exact ih r hr

/-! Claim theorems. -/

/-- Claim C9 (confirmed): interpolation leaves a string without a dollar
character unchanged, hence is idempotent on such strings, and every
non-string value passes through unchanged. -/
theorem c9_interpolation_idempotent (vars : Dict) :
    (∀ s : Str, '$' ∉ s →
      interpolateValue vars (.vstr s) = .vstr s ∧
      interpolateValue vars (interpolateValue vars (.vstr s)) =
        interpolateValue vars (.vstr s)) ∧
    (∀ v : Value, (∀ t : Str, v ≠ .vstr t) → interpolateValue vars v = v) := by
  constructor
  · intro s h
    have h1 : interpolateStr vars s = s := interpolateStr_no_dollar vars s h
    constructor
    · simp [interpolateValue, h1]
    · simp [interpolateValue, h1]
  · intro v hv
    cases v with
    | vstr t => exact absurd rfl (hv t)
    | vnone => rfl
    | vbool b => rfl
    | vint n => rfl

/-- Witness for c9_interpolation_idempotent at a concrete store, a
concrete dollar-free string, and a concrete non-string value. -/
theorem c9_witness :
    ('$' ∉ str "hello" ∧
      interpolateValue [(str "a", .vint 1)] (.vstr (str "hello")) =
        .vstr (str "hello")) ∧
    interpolateValue [(str "a", .vint 1)] (.vbool true) = .vbool true := by
  refine ⟨⟨by decide, ?_⟩, ?_⟩
  · exact ((c9_interpolation_idempotent [(str "a", .vint 1)]).1 (str "hello")
      (by decide)).1
  · exact (c9_interpolation_idempotent [(str "a", .vint 1)]).2 (.vbool true)
      (fun t h => Value.noConfusion h)

/-- Claim C6 counterexample: with the store mapping a to the text of a b
placeholder and then b to x, interpolating a string consisting of an a
placeholder substitutes the introduced b placeholder again, producing x
rather than the un-resubstituted text. -/
theorem c6_counterexample :
    interpolateStr [(str "a", .vstr (str "$b")), (str "b", .vstr (str "x"))]
        (str "$a") = str "x" ∧
    interpolateStr [(str "a", .vstr (str "$b")), (str "b", .vstr (str "x"))]
        (str "$a") ≠ str "$b" := by
  constructor
  · decide
  · decide

/-- Claim C6 as amended (proved): substitution processes store entries one
at a time in store order over the evolving string, so placeholder text
introduced by the value of an earlier entry is substituted again exactly
when the variable it names appears later in the order; with the
introducing entry last, the introduced placeholder survives. -/
theorem c6_amended_order_dependence :
    interpolateStr [(str "a", .vstr (str "$b")), (str "b", .vstr (str "x"))]
        (str "$a") = str "x" ∧
    interpolateStr [(str "b", .vstr (str "x")), (str "a", .vstr (str "$b"))]
        (str "$a") = str "$b" := by
  constructor
  · decide
  · decide

theorem natDigitsAux_ne_nil (fuel n : Nat) (h : 0 < fuel) :
    natDigitsAux fuel n ≠ [] := by
  cases fuel with
  | zero => omega
  | succ f =>
    simp only [natDigitsAux]
    split
    · simp
    · simp

theorem intToStr_ne_nil (n : Int) : intToStr n ≠ [] := by
  unfold intToStr natDigits
  split
  · simp
  · exact natDigitsAux_ne_nil _ _ (by omega)

theorem pyStr_ne_nil_of_truthy (v : Value) (h : truthy v = true) :
    pyStr v ≠ [] := by
  cases v with
  | vnone => simp [truthy] at h
  | vbool b =>
    cases b
    · simp [truthy] at h
    · decide
  | vint n => exact intToStr_ne_nil n
  | vstr s =>
    simp [truthy] at h
    simpa [pyStr] using h

/-- Claim C7 counterexample: a present variable holding the integer 0 has
a nonempty string form, so the claim predicts is_empty false and not_empty
true, but the truthiness-based source code evaluates is_empty to true and
not_empty to false on it. -/
theorem c7_counterexample :
    evaluateCondition (isEmptyCond (str "x")) [(str "x", .vint 0)] = true ∧
    evaluateCondition (notEmptyCond (str "x")) [(str "x", .vint 0)] = false ∧
    dictGet [(str "x", .vint 0)] (str "x") = some (.vint 0) ∧
    (.vint 0 : Value) ≠ .vnone ∧
    (pyStr (.vint 0)).length ≠ 0 := by
  refine ⟨by decide, by decide, by decide, by decide, by decide⟩

/-- Claim C7 as amended (proved): is_empty evaluates to true exactly when
the value read for the variable (None when absent) is falsy under Python
truthiness - so also on a present 0 or False - and not_empty is its
negation.  The string-form length-zero disjunct of the source is
subsumed, because every truthy scalar value has a nonempty string form. -/
theorem c7_amended (vars : Dict) (name : Str) (h : name ≠ []) :
    evaluateCondition (isEmptyCond name) vars =
      ! truthy ((dictGet vars name).getD .vnone) ∧
    evaluateCondition (notEmptyCond name) vars =
      truthy ((dictGet vars name).getD .vnone) := by
  have htr : truthy (.vstr name) = true := by simp [truthy, h]
  constructor
  · simp only [evaluateCondition, isEmptyCond, conditionActual, conditionExpected]
    simp +decide [dictGet, htr]
    cases hv : truthy ((dictGet vars name).getD .vnone) with
    | true =>
      have hne := pyStr_ne_nil_of_truthy _ hv
      simp [hv, List.length_eq_zero, hne]
    | false => simp [hv]
  · simp only [evaluateCondition, notEmptyCond, conditionActual, conditionExpected]
    simp +decide [dictGet, htr]
    cases hv : truthy ((dictGet vars name).getD .vnone) with
    | true =>
      have hne := pyStr_ne_nil_of_truthy _ hv
      simp [hv, List.length_pos, hne]
    | false => simp [hv]

/-- Witness for c7_amended at a concrete store holding 3 under x. -/
theorem c7_witness :
    (str "x" ≠ ([] : Str)) ∧
    evaluateCondition (isEmptyCond (str "x")) [(str "x", .vint 3)] =
      ! truthy ((dictGet [(str "x", .vint 3)] (str "x")).getD .vnone) := by
  exact ⟨by decide, (c7_amended [(str "x", .vint 3)] (str "x") (by decide)).1⟩

/-- Claim C5 counterexample: with variable x absent from the store, the
claim predicts every condition on x evaluates to false, but a not_exists
condition on x evaluates to true (the missing variable reads as None). -/
theorem c5_counterexample :
    dictGet ([] : Dict) (str "x") = none ∧
    evaluateCondition
      [(str "variable", .vstr (str "x")), (str "operator", .vstr (str "not_exists"))]
      [] = true := by
  refine ⟨by decide, by decide⟩

/-- Claim C5 as amended (proved): evaluation is total (the embedding is a
Lean function into Bool, mirroring that every Python failure path is
guarded); a condition whose operator value never reads as one of the
twelve known operator strings evaluates to false; a condition whose
variable-name value is falsy (in particular missing) evaluates to false -
whereas a variable missing from the store is read as None, not short
circuited; and for the four numeric operators a float-parse failure of
either operand yields false. -/
theorem c5_amended (cond vars : Dict) :
    ((∀ op : Str, (dictGet cond (str "operator")).getD .vnone = .vstr op →
        op ∉ knownOperators) →
      evaluateCondition cond vars = false) ∧
    (truthy ((dictGet cond (str "variable")).getD .vnone) = false →
      evaluateCondition cond vars = false) ∧
    (∀ op : Str,
      op ∈ [str "greater_than", str "less_than", str "greater_equal", str "less_equal"] →
      (dictGet cond (str "operator")).getD .vnone = .vstr op →
      (pyFloat (conditionActual cond vars) = none ∨
        pyFloat (conditionExpected cond vars) = none) →
      evaluateCondition cond vars = false) := by
  refine ⟨?_, ?_, ?_⟩
  · intro hop
    by_cases hv : truthy ((dictGet cond (str "variable")).getD .vnone) = true
    · by_cases ho : truthy ((dictGet cond (str "operator")).getD .vnone) = true
      · cases hopv : (dictGet cond (str "operator")).getD .vnone with
        | vstr op =>
          have hk := hop op hopv
          simp [knownOperators, str] at hk
          obtain ⟨h1, h2, h3, h4, h5, h6, h7, h8, h9, h10, h11, h12⟩ := hk
          simp only [evaluateCondition, hopv]
          simp [hv, ho, hopv, str, h1, h2, h3, h4, h5, h6, h7, h8, h9, h10, h11, h12]
        | vnone => simp [truthy, hopv] at ho
        | vbool b => simp only [evaluateCondition, hopv]; simp [hv, ho, hopv]
        | vint n => simp only [evaluateCondition, hopv]; simp [hv, ho, hopv]
      · simp only [evaluateCondition]
        simp [Bool.not_eq_true] at ho
        simp [ho]
    · simp only [evaluateCondition]
      simp [Bool.not_eq_true] at hv
      simp [hv]
  · intro hv
    simp only [evaluateCondition]
    simp [hv]
  · intro op hmem hopv hfail
    by_cases hv : truthy ((dictGet cond (str "variable")).getD .vnone) = true
    · fin_cases hmem <;>
      · simp only [evaluateCondition, hopv]
        simp +decide [hv, str]
        rcases hfail with h | h <;> simp [h]
    · simp only [evaluateCondition]
      simp [Bool.not_eq_true] at hv
      simp [hv]

/-- Witness for c5_amended at a concrete condition with an unknown
operator, a concrete falsy-variable condition, and a concrete numeric
condition whose operand fails to parse. -/
theorem c5_witness :
    evaluateCondition
      [(str "variable", .vstr (str "x")), (str "operator", .vstr (str "frobnicate"))]
      [(str "x", .vint 1)] = false ∧
    evaluateCondition [(str "operator", .vstr (str "equals"))] [] = false ∧
    evaluateCondition
      [(str "variable", .vstr (str "x")), (str "operator", .vstr (str "greater_than")),
       (str "value", .vstr (str "5"))]
      [(str "x", .vstr (str "abc"))] = false := by
  refine ⟨?_, ?_, ?_⟩
  · exact (c5_amended _ _).1 (by intro op hop; simp [dictGet, str] at hop; subst hop; decide)
  · exact (c5_amended _ _).2.1 (by decide)
  · exact (c5_amended _ _).2.2 (str "greater_than") (by decide) (by decide)
      (Or.inl (by decide))

theorem dictGet_setVar_self (st : Dict) (k : Str) (v : Value) :
    dictGet (setVar st k v) k = some v := by
  induction st with
  | nil => simp [setVar, dictGet]
  | cons kv rest ih =>
    obtain ⟨k0, v0⟩ := kv
    by_cases h : k0 = k
    · subst h
      simp [setVar, dictGet]
    · simp [setVar, dictGet, h, ih]

theorem dictGet_setVar_ne (st : Dict) (k q : Str) (v : Value) (h : q ≠ k) :
    dictGet (setVar st k v) q = dictGet st q := by
  have hk : k ≠ q := fun hh => h hh.symm
  induction st with
  | nil => simp [setVar, dictGet, hk]
  | cons kv rest ih =>
    obtain ⟨k0, v0⟩ := kv
    by_cases h0 : k0 = k
    · subst h0
      simp [setVar, dictGet, hk]
    · simp [setVar, dictGet, h0, ih]

theorem dictGet_updateStore_none (st other : Dict) (k : Str)
    (h : dictGet other k = none) :
    dictGet (updateStore st other) k = dictGet st k := by
  induction other generalizing st with
  | nil => rfl
  | cons kv rest ih =>
    obtain ⟨k0, v0⟩ := kv
    simp only [dictGet] at h
    by_cases h0 : k0 = k
    · simp [h0] at h
    · simp only [updateStore, List.foldl_cons]
      rw [show (rest.foldl (fun s kv => setVar s kv.1 kv.2) (setVar st k0 v0)) =
        updateStore (setVar st k0 v0) rest from rfl]
      rw [ih (setVar st k0 v0) (by simpa [h0] using h)]
      have hk : k ≠ k0 := fun hh => h0 hh.symm
      exact dictGet_setVar_ne st k0 k v0 hk

theorem dictGet_eq_none_of_not_key (l : Dict) (k : Str)
    (h : k ∉ l.map Prod.fst) : dictGet l k = none := by
  induction l with
  | nil => rfl
  | cons kv rest ih =>
    obtain ⟨k0, v0⟩ := kv
    simp only [List.map_cons, List.mem_cons] at h
    push_neg at h
    have hk : k0 ≠ k := fun hh => h.1 hh.symm
    simp [dictGet, hk, ih h.2]

theorem dictGet_updateStore_some (st other : Dict) (k : Str) (v : Value)
    (hnd : (other.map Prod.fst).Nodup) (h : dictGet other k = some v) :
    dictGet (updateStore st other) k = some v := by
  induction other generalizing st with
  | nil => simp [dictGet] at h
  | cons kv rest ih =>
    obtain ⟨k0, v0⟩ := kv
    simp only [List.map_cons, List.nodup_cons] at hnd
    simp only [dictGet] at h
    simp only [updateStore, List.foldl_cons]
    rw [show (rest.foldl (fun s kv => setVar s kv.1 kv.2) (setVar st k0 v0)) =
      updateStore (setVar st k0 v0) rest from rfl]
    by_cases h0 : k0 = k
    · subst h0
      simp at h
      subst h
      rw [dictGet_updateStore_none _ _ _
        (dictGet_eq_none_of_not_key rest k0 hnd.1)]
      exact dictGet_setVar_self st k0 v0
    · simp only [if_neg h0] at h
      exact ih (setVar st k0 v0) hnd.2 h

/-- Claim C1 counterexample: the Script Runner merge overwrites a
caller-supplied value with the script default for the same key - the
caller value is gone from the resulting store, contradicting the claimed
caller-over-script precedence. -/
theorem c1_counterexample :
    ((executeScript (D := Unit) (fun _ d => (d, .ok .vnone))
        { name := str "s"
          «variables» := [(str "x", .vstr (str "default"))]
          steps := [] }
        [(str "x", .vstr (str "caller"))] ()).2).«variables» =
      [(str "x", .vstr (str "default"))] ∧
    dictGet [(str "x", .vstr (str "default"))] (str "x") ≠
      some (.vstr (str "caller")) := by
  constructor
  · simp +decide [executeScript, execList, updateStore, setVar]
  · decide

/-- Claim C1 as amended (proved): the merge direction is reversed -
execute_script applies dict.update with the script-declared variables to
the caller store, so a script default overwrites the caller value at a
shared key, and caller entries for keys the script does not declare are
the only ones preserved. -/
theorem c1_amended {D : Type} (ac : Actor D) (d : D) (nm : Str)
    (caller sv : Dict) (hnd : (sv.map Prod.fst).Nodup) :
    ((executeScript ac { name := nm, «variables» := sv, steps := [] } caller d).2).«variables» =
      updateStore caller sv ∧
    (∀ k v, dictGet sv k = some v →
      dictGet ((executeScript ac { name := nm, «variables» := sv, steps := [] }
        caller d).2).«variables» k = some v) ∧
    (∀ k, dictGet sv k = none →
      dictGet ((executeScript ac { name := nm, «variables» := sv, steps := [] }
        caller d).2).«variables» k = dictGet caller k) := by
  have hrun : ((executeScript ac { name := nm, «variables» := sv, steps := [] }
      caller d).2).«variables» = updateStore caller sv := by
    simp [executeScript, execList]
  refine ⟨hrun, ?_, ?_⟩
  · intro k v h
    rw [hrun]
    exact dictGet_updateStore_some caller sv k v hnd h
  · intro k h
    rw [hrun]
    exact dictGet_updateStore_none caller sv k h

/-- Witness for c1_amended: a caller store with two keys, a script
declaring one of them; the declared key takes the script value and the
other keeps the caller value. -/
theorem c1_witness :
    dictGet ((executeScript (D := Unit) (fun _ d => (d, .ok .vnone))
        { name := str "s"
          «variables» := [(str "x", .vstr (str "default"))]
          steps := [] }
        [(str "x", .vstr (str "caller")), (str "y", .vstr (str "keep"))] ()).2).«variables»
      (str "x") = some (.vstr (str "default")) ∧
    dictGet ((executeScript (D := Unit) (fun _ d => (d, .ok .vnone))
        { name := str "s"
          «variables» := [(str "x", .vstr (str "default"))]
          steps := [] }
        [(str "x", .vstr (str "caller")), (str "y", .vstr (str "keep"))] ()).2).«variables»
      (str "y") = some (.vstr (str "keep")) := by
  constructor
  · exact (c1_amended (D := Unit) (fun _ d => (d, .ok .vnone)) () (str "s")
      [(str "x", .vstr (str "caller")), (str "y", .vstr (str "keep"))]
      [(str "x", .vstr (str "default"))] (by decide)).2.1 (str "x")
      (.vstr (str "default")) (by decide)
  · rw [(c1_amended (D := Unit) (fun _ d => (d, .ok .vnone)) () (str "s")
      [(str "x", .vstr (str "caller")), (str "y", .vstr (str "keep"))]
      [(str "x", .vstr (str "default"))] (by decide)).2.2 (str "y") (by decide)]
    decide

/-- Claim C3 (code bug): the step model has no timing, tab-index or
free-form parameter fields, and _step_to_action builds requests carrying
only the five step string fields, so every request produced from a step
has None for seconds, tab index, params and the other executor-only
fields.  Consequently a sleep step fails the sleep handler validation and
a switch_tab step fails the tab handler validation, for every store -
no timing value or tab index can ever reach the actor from a script. -/
theorem c3_step_fields_dropped (step : ScriptStep) (vars : Dict) :
    (∀ req, stepToAction vars step = .ok req →
      req.seconds = none ∧ req.tab_index = none ∧ req.params = none ∧
      req.min_seconds = none ∧ req.max_seconds = none ∧ req.cookies = none ∧
      req.cookies_text = none ∧ req.iframe_selector = none ∧
      req.«attribute» = none) ∧
    Except.map (fun req => sleepRequiresSeconds (interpolateParams vars req))
        (stepToAction vars sleepStep) =
      .ok (.error (str "Seconds is required for sleep action")) ∧
    Except.map (fun req => switchTabRequiresIndex (interpolateParams vars req))
        (stepToAction vars switchTabStep) =
      .ok (.error (str "Tab index is required for switch_tab action")) := by
  refine ⟨?_, ?_, ?_⟩
  · intro req h
    by_cases hmem : step.fields.action ∈ actionTypeValues
    · simp only [stepToAction, if_pos hmem, Except.ok.injEq] at h
      subst h
      refine ⟨rfl, rfl, rfl, rfl, rfl, rfl, rfl, rfl, rfl⟩
    · simp only [stepToAction, if_neg hmem] at h
      exact Except.noConfusion h
  · simp +decide [stepToAction, sleepStep, ScriptStep.fields, actionTypeValues,
      interpolateParams, sleepRequiresSeconds, Except.map]
  · simp +decide [stepToAction, switchTabStep, ScriptStep.fields, actionTypeValues,
      interpolateParams, switchTabRequiresIndex, Except.map]

/-- Witness for c3_step_fields_dropped at the sleep step and the empty
store. -/
theorem c3_witness :
    stepToAction [] sleepStep = .ok { action := str "sleep" } ∧
    ({ action := str "sleep" } : ActionRequest).seconds = none ∧
    sleepRequiresSeconds (interpolateParams [] { action := str "sleep" }) =
      .error (str "Seconds is required for sleep action") := by
  have h := (c3_step_fields_dropped sleepStep []).1 { action := str "sleep" }
    (by rfl)
  exact ⟨by rfl, h.1, by rfl⟩

theorem execStep_retryNav_unfold (m : Int) (hm : m ≠ 0) (rc : Nat)
    (d0 : Nat) (st : EngineSt) :
    execStep countingFailActor (retryNavStep m) rc d0 st =
      if (rc : Int) < m then
        execStep countingFailActor (retryNavStep m) (rc + 1) (d0 + 1) st
      else ((d0 + 1, st), .error (str "boom")) := by
  conv_lhs => rw [execStep.eq_def]
  simp +decide [retryNavStep, ScriptStep.fields, stepToAction, actionTypeValues,
    countingFailActor, pyOrStr, pyOrInt, interpolateParams, hm]

theorem retryNav_attempts (m : Int) :
    ∀ (k : Nat) (rc : Nat), (m - rc).toNat = k → (rc : Int) ≤ m → m ≠ 0 →
    ∀ (d0 : Nat) (st : EngineSt),
    execStep countingFailActor (retryNavStep m) rc d0 st =
      ((d0 + ((m - rc).toNat + 1), st), .error (str "boom")) := by
  intro k
  induction k with
  | zero =>
    intro rc hk hle hm d0 st
    have heq : (rc : Int) = m := by omega
    rw [execStep_retryNav_unfold m hm rc d0 st, if_neg (by omega)]
    have : (m - rc).toNat = 0 := by omega
    rw [this]
  | succ k ih =>
    intro rc hk hle hm d0 st
    have hlt : (rc : Int) < m := by omega
    rw [execStep_retryNav_unfold m hm rc d0 st, if_pos hlt]
    rw [ih (rc + 1) (by push_cast; omega) (by push_cast; omega) hm (d0 + 1) st]
    have : (d0 + 1) + ((m - (rc + 1 : Nat)).toNat + 1) =
        d0 + ((m - rc).toNat + 1) := by push_cast; omega
    rw [this]

/-- Claim C2 (confirmed): a retry step with a positive max-retry bound m
whose dispatch always fails is attempted exactly m + 1 times - the actor
is invoked m + 1 times, counted in the driver state - and then the error
propagates, so the surrounding run reports failure with the error
message.  At the claimed instance m = 2 this is exactly 3 attempts. -/
theorem c2_retry_exhaustion (m : Int) (hm : 0 < m) (d0 : Nat)
    (st : EngineSt) (nm : Str) (vars0 : Dict) :
    execStep countingFailActor (retryNavStep m) 0 d0 st =
      ((d0 + (m.toNat + 1), st), .error (str "boom")) ∧
    (executeScript countingFailActor { name := nm, steps := [retryNavStep m] }
        vars0 d0).1 = d0 + (m.toNat + 1) ∧
    (executeScript countingFailActor { name := nm, steps := [retryNavStep m] }
        vars0 d0).2.success = false ∧
    (executeScript countingFailActor { name := nm, steps := [retryNavStep m] }
        vars0 d0).2.error = some (str "boom") := by
  have hstep : ∀ (d1 : Nat) (st1 : EngineSt),
      execStep countingFailActor (retryNavStep m) 0 d1 st1 =
        ((d1 + (m.toNat + 1), st1), .error (str "boom")) := by
    intro d1 st1
    have h := retryNav_attempts m (m - 0).toNat 0 rfl (by omega) (by omega) d1 st1
    simpa using h
  refine ⟨hstep d0 st, ?_, ?_, ?_⟩ <;>
    simp [executeScript, execList, hstep, updateStore]

/-- Witness for c2_retry_exhaustion at max-retry 2: exactly 3 actor
invocations, then run failure. -/
theorem c2_witness :
    execStep countingFailActor (retryNavStep 2) 0 0 { vars := [], steps_completed := 0 } =
      ((3, { vars := [], steps_completed := 0 }), .error (str "boom")) ∧
    (executeScript countingFailActor { name := str "s", steps := [retryNavStep 2] }
        [] 0).2.success = false := by
  have h := c2_retry_exhaustion 2 (by omega) 0 { vars := [], steps_completed := 0 }
    (str "s") []
  exact ⟨by simpa using h.1, h.2.2.1⟩

/-- Claim C4 (confirmed): execute_script is a total function into a Run
record - in the embedding failure is a value by construction, mirroring
the catch-all except of the source - and whenever the step sequence
propagates an error, the record carries success false, the error message,
and the steps-completed counter as left by execution at the failure
point; when the steps all succeed it carries success true and no error. -/
theorem c4_failure_is_a_value {D : Type} (ac : Actor D) (s : Script)
    (vars0 : Dict) (d : D) :
    (∀ (d1 : D) (st1 : EngineSt) (e : Str),
      execList ac s.steps d
          { vars := updateStore vars0 s.«variables», steps_completed := 0 } =
        ((d1, st1), .error e) →
      (executeScript ac s vars0 d).2 =
        { success := false, steps_completed := st1.steps_completed,
          «variables» := st1.vars, error := some e }) ∧
    (∀ (d1 : D) (st1 : EngineSt) (v : Value),
      execList ac s.steps d
          { vars := updateStore vars0 s.«variables», steps_completed := 0 } =
        ((d1, st1), .ok v) →
      (executeScript ac s vars0 d).2 =
        { success := true, steps_completed := st1.steps_completed,
          «variables» := st1.vars, error := none }) := by
  constructor
  · intro d1 st1 e h
    simp [executeScript, h]
  · intro d1 st1 v h
    simp [executeScript, h]

/-- Witness for c4_failure_is_a_value: a three-step script whose second
step fails reports failure with one completed step, not three. -/
theorem c4_witness :
    (executeScript pickyActor c4Script [] ()).2 =
      { success := false, steps_completed := 1, «variables» := [],
        error := some (str "boom") } ∧
    c4Script.steps.length = 3 := by
  have h : execList pickyActor c4Script.steps ()
      { vars := updateStore [] c4Script.«variables», steps_completed := 0 } =
      (((), { vars := [], steps_completed := 1 }), .error (str "boom")) := by
    simp +decide [execList, execStep, c4Script, navUrlStep, ScriptStep.fields,
      stepToAction, actionTypeValues, pickyActor, interpolateParams,
      interpolateStr, pyOrStr, updateStore]
  exact ⟨(c4_failure_is_a_value pickyActor c4Script [] ()).1 () _ _ h, rfl⟩

theorem digitChar_ne_dollar (n : Nat) : Nat.digitChar n ≠ '$' := by
  intro h
  unfold Nat.digitChar at h
  rcases Nat.lt_or_ge n 16 with hn | hn
  · interval_cases n <;> exact absurd h (by decide)
  · have h0 : ¬ n = 0 := by omega
    have h1 : ¬ n = 1 := by omega
    have h2 : ¬ n = 2 := by omega
    have h3 : ¬ n = 3 := by omega
    have h4 : ¬ n = 4 := by omega
    have h5 : ¬ n = 5 := by omega
    have h6 : ¬ n = 6 := by omega
    have h7 : ¬ n = 7 := by omega
    have h8 : ¬ n = 8 := by omega
    have h9 : ¬ n = 9 := by omega
    have h10 : ¬ n = 10 := by omega
    have h11 : ¬ n = 11 := by omega
    have h12 : ¬ n = 12 := by omega
    have h13 : ¬ n = 13 := by omega
    have h14 : ¬ n = 14 := by omega
    have h15 : ¬ n = 15 := by omega
    rw [if_neg h0, if_neg h1, if_neg h2, if_neg h3, if_neg h4, if_neg h5,
      if_neg h6, if_neg h7, if_neg h8, if_neg h9, if_neg h10, if_neg h11,
      if_neg h12, if_neg h13, if_neg h14, if_neg h15] at h
    exact absurd h (by decide)

theorem dollar_not_mem_natDigitsAux (fuel n : Nat) :
    '$' ∉ natDigitsAux fuel n := by
  induction fuel generalizing n with
  | zero => simp [natDigitsAux]
  | succ f ih =>
    simp only [natDigitsAux]
    split
    · simp only [List.mem_singleton]
      exact fun h => digitChar_ne_dollar n h.symm
    · simp only [List.mem_append, List.mem_singleton]
      rintro (h | h)
      · exact ih (n / 10) h
      · exact digitChar_ne_dollar (n % 10) h.symm

theorem dollar_not_mem_intToStr (n : Int) : '$' ∉ intToStr n := by
  unfold intToStr natDigits
  split
  · simp only [List.mem_cons]
    rintro (h | h)
    · exact absurd h (by decide)
    · exact dollar_not_mem_natDigitsAux _ _ h
  · exact dollar_not_mem_natDigitsAux _ _

theorem replaceAllAux_nil (p r : Str) (fuel : Nat) :
    replaceAllAux p r fuel [] = [] := by
  cases fuel <;> rfl

theorem replaceAll_self (p r : Str) (hp : p ≠ []) : replaceAll p r p = r := by
  unfold replaceAll
  cases p with
  | nil => exact absurd rfl hp
  | cons c cs =>
    simp only [List.length_cons, replaceAllAux]
    rw [if_pos ⟨List.isPrefixOf_iff_prefix.mpr (List.prefix_refl _), by simp⟩]
    rw [show ((c :: cs).drop (cs.length + 1)) = [] from by
      simpa using List.drop_length (c :: cs)]
    rw [replaceAllAux_nil]
    simp

theorem interpolateStr_loop_var (j : Int) :
    interpolateStr [(str "i", .vint j)] (str "$i") = intToStr j := by
  unfold interpolateStr
  simp only [List.foldl_cons, List.foldl_nil]
  rw [if_pos (by decide)]
  rw [show ('$' :: str "i") = str "$i" from rfl]
  exact replaceAll_self (str "$i") (pyStr (.vint j)) (by decide)

theorem c8_loop_aux (is : List Int) :
    ∀ (d : List (Option Str)) (vs : Dict) (n : Nat),
    (∀ i : Int, setVar vs (str "i") (.vint i) = [(str "i", .vint i)]) →
    execLoop echoActor is (str "i") [navUrlStep (str "$i")] d
        { vars := vs, steps_completed := n } =
      ((d ++ is.map (fun i => some (intToStr i)),
        { vars := is.foldl (fun acc i => setVar acc (str "i") (.vint i)) vs,
          steps_completed := n + is.length }), .ok .vnone) := by
  induction is with
  | nil =>
    intro d vs n hvs
    simp [execLoop]
  | cons i tl ih =>
    intro d vs n hvs
    have h1 : interpolateStr [(str "i", .vint i)] (str "$i") = intToStr i :=
      interpolateStr_loop_var i
    have h2 : interpolateStr [(str "i", .vint i)] (intToStr i) = intToStr i :=
      interpolateStr_no_dollar _ _ (dollar_not_mem_intToStr i)
    have hbody : execList echoActor [navUrlStep (str "$i")] d
        { vars := [(str "i", .vint i)], steps_completed := n } =
        ((d ++ [some (intToStr i)],
          { vars := [(str "i", .vint i)], steps_completed := n + 1 }), .ok .vnone) := by
      simp +decide [execList, execStep, navUrlStep, ScriptStep.fields, stepToAction,
        actionTypeValues, echoActor, interpolateParams, h1, h2, pyOrStr]
    conv_lhs => rw [execLoop.eq_def]
    simp only [hvs i, hbody]
    rw [ih (d ++ [some (intToStr i)]) [(str "i", .vint i)] (n + 1)
      (by intro q; simp [setVar])]
    simp only [List.map_cons, List.foldl_cons, List.length_cons, hvs i]
    have : n + 1 + tl.length = n + (tl.length + 1) := by omega
    rw [this]
    simp

/-- Claim C8 (confirmed): a loop step over the inclusive range [a, b]
iterates exactly over the integers from a to b in order, writes each
index into the default loop variable i before running the body (the
logged navigation url of each iteration is the string form of the
index), counts every body step independently, and adds one completed
step for the loop itself, so a loop over [1, 3] with a one-action body
adds 3 + 1 to the counter. -/
theorem c8_loop_semantics (a b : Int) (hab : a ≤ b) (d : List (Option Str))
    (n : Nat) :
    execStep echoActor (loopNavStep a b) 0 d { vars := [], steps_completed := n } =
      ((d ++ (intRange a b).map (fun i => some (intToStr i)),
        { vars := (intRange a b).foldl
            (fun acc i => setVar acc (str "i") (.vint i)) [],
          steps_completed := n + (intRange a b).length + 1 }), .ok .vnone) ∧
    (intRange a b).length = (b + 1 - a).toNat ∧
    (∀ i : Int, i ∈ intRange a b ↔ a ≤ i ∧ i ≤ b) := by
  refine ⟨?_, ?_, ?_⟩
  · conv_lhs => rw [execStep.eq_def]
    simp only [loopNavStep, ScriptStep.fields]
    simp +decide [pyOrStr]
    rw [c8_loop_aux (intRange a b) d [] n (by intro q; rfl)]
  · simp only [intRange, List.length_map, List.length_range]
  · intro i
    simp only [intRange, List.mem_map, List.mem_range]
    constructor
    · rintro ⟨k, hk, rfl⟩
      omega
    · rintro ⟨h1, h2⟩
      exact ⟨(i - a).toNat, by omega, by omega⟩

/-- Witness for c8_loop_semantics at the claimed instance: range [1, 3]
with a one-action body, three body completions plus one for the loop. -/
theorem c8_witness :
    (1 : Int) ≤ 3 ∧
    execStep echoActor (loopNavStep 1 3) 0 [] { vars := [], steps_completed := 0 } =
      (([some (str "1"), some (str "2"), some (str "3")],
        { vars := [(str "i", .vint 3)], steps_completed := 4 }), .ok .vnone) := by
  refine ⟨by omega, ?_⟩
  have h := (c8_loop_semantics 1 3 (by omega) [] 0).1
  rw [h]
  rfl

theorem c10_loop_aux (is : List Int) :
    ∀ (d : List (Option Str)) (st : EngineSt),
    execLoop echoActor is (str "i") [noUrlNavStep] d st =
      ((d ++ is.map (fun _ => (none : Option Str)),
        { vars := is.foldl (fun acc i => setVar acc (str "i") (.vint i)) st.vars,
          steps_completed := st.steps_completed + is.length }), .ok .vnone) := by
  have hbody : ∀ (d : List (Option Str)) (vs : Dict) (n : Nat),
      execList echoActor [noUrlNavStep] d { vars := vs, steps_completed := n } =
        ((d ++ [none], { vars := vs, steps_completed := n + 1 }), .ok .vnone) := by
    intro d vs n
    simp +decide [execList, execStep, noUrlNavStep, ScriptStep.fields,
      stepToAction, actionTypeValues, echoActor, interpolateParams, pyOrStr]
  induction is with
  | nil =>
    intro d st
    simp [execLoop]
  | cons i tl ih =>
    intro d st
    conv_lhs => rw [execLoop.eq_def]
    simp only [hbody]
    rw [ih (d ++ [none]) ⟨setVar st.vars (str "i") (.vint i), st.steps_completed + 1⟩]
    simp only [List.map_cons, List.foldl_cons, List.length_cons]
    have : st.steps_completed + 1 + tl.length =
        st.steps_completed + (tl.length + 1) := by omega
    rw [this]
    simp

/-- Claim C10 (confirmed): dispatch priority is conditional over loop
over action.  A step with a truthy condition and nonempty then list runs
as a conditional whatever its loop fields and action say (the actor is
invoked only for the then body, chosen by the condition, and the loop
fields never execute); a step with a truthy condition but an empty then
list is not a conditional: with loop fields it runs as a loop, and
without them its action is dispatched to the actor. -/
theorem c10_dispatch_priority (c : Dict) (hc : c ≠ []) (u tu : Str)
    (htu : ¬ tu.isEmpty = true) (hu : ¬ u.isEmpty = true) (lr : List Int)
    (ls : List ScriptStep) (a2 b2 : Int) (d : List (Option Str)) (st : EngineSt) :
    (execStep echoActor (fullStep c u tu lr ls) 0 d st =
      if evaluateCondition c st.vars then
        ((d ++ [some (interpolateStr st.vars (interpolateStr st.vars tu))],
          { st with steps_completed := st.steps_completed + 2 }), .ok .vnone)
      else
        ((d, { st with steps_completed := st.steps_completed + 1 }), .ok .vnone)) ∧
    (execStep echoActor (condNoThenStep c u) 0 d st =
      ((d ++ [some (interpolateStr st.vars (interpolateStr st.vars u))],
        { st with steps_completed := st.steps_completed + 1 }),
        .ok (.vstr (str "r")))) ∧
    (execStep echoActor (condLoopStep c u a2 b2) 0 d st =
      ((d ++ (intRange a2 b2).map (fun _ => (none : Option Str)),
        { vars := (intRange a2 b2).foldl
            (fun acc i => setVar acc (str "i") (.vint i)) st.vars,
          steps_completed := st.steps_completed + (intRange a2 b2).length + 1 }),
        .ok .vnone)) := by
  have hce : c.isEmpty = false := by
    cases c with
    | nil => exact absurd rfl hc
    | cons kv tl => rfl
  have hthen : ∀ (w : Str), ¬ w.isEmpty = true → ∀ (d1 : List (Option Str))
      (st1 : EngineSt),
      execList echoActor [navUrlStep w] d1 st1 =
        ((d1 ++ [some (interpolateStr st1.vars (interpolateStr st1.vars w))],
          { st1 with steps_completed := st1.steps_completed + 1 }),
          .ok .vnone) := by
    intro w hw d1 st1
    simp +decide [execList, execStep, navUrlStep, ScriptStep.fields,
      stepToAction, actionTypeValues, echoActor, interpolateParams, pyOrStr, hw]
  refine ⟨?_, ?_, ?_⟩
  · conv_lhs => rw [execStep.eq_def]
    simp only [fullStep, ScriptStep.fields, hce]
    by_cases hcr : evaluateCondition c st.vars
    · simp only [hcr, hthen tu htu d st]
      simp
    · simp only [hcr]
      simp
  · conv_lhs => rw [execStep.eq_def]
    simp only [condNoThenStep, ScriptStep.fields, hce]
    simp +decide [condNoThenStep, ScriptStep.fields, stepToAction,
      actionTypeValues, echoActor, interpolateParams, pyOrStr, hu]
  · conv_lhs => rw [execStep.eq_def]
    simp only [condLoopStep, ScriptStep.fields, hce]
    simp +decide [pyOrStr]
    rw [c10_loop_aux (intRange a2 b2) d st]
    simp

/-- Witness for c10_dispatch_priority at a concrete truthy condition, a
store making it true, and concrete urls and loop fields. -/
theorem c10_witness :
    execStep echoActor
        (fullStep [(str "variable", .vstr (str "x")), (str "operator", .vstr (str "exists"))]
          (str "u") (str "t") [1, 2] [noUrlNavStep]) 0 []
        { vars := [(str "x", .vint 5)], steps_completed := 0 } =
      (([some (str "t")], { vars := [(str "x", .vint 5)], steps_completed := 2 }),
        .ok .vnone) ∧
    execStep echoActor
        (condNoThenStep [(str "variable", .vstr (str "x")), (str "operator", .vstr (str "exists"))]
          (str "u")) 0 [] { vars := [(str "x", .vint 5)], steps_completed := 0 } =
      (([some (str "u")], { vars := [(str "x", .vint 5)], steps_completed := 1 }),
        .ok (.vstr (str "r"))) := by
  have h := c10_dispatch_priority
    [(str "variable", .vstr (str "x")), (str "operator", .vstr (str "exists"))]
    (by decide) (str "u") (str "t") (by decide) (by decide) [1, 2] [noUrlNavStep]
    1 2 [] { vars := [(str "x", .vint 5)], steps_completed := 0 }
  constructor
  · rw [h.1]
    simp +decide [evaluateCondition, conditionActual, conditionExpected,
      dictGet, interpolateStr]
  · rw [h.2.1]
    simp +decide [interpolateStr]

end Autosaurus
